import Mathlib

/-!
# Verification of the ISC-DHCP → Kea migration core

A shallow embedding of the repository's two core components:

* `SubnetMatcher` (src/cidr.ts): builds queryable IPv4 ranges from subnet
  records and answers containment queries.
* `DHCPMigrator` (src/migrator.ts): validates static-mapping records and
  turns them into reservation records plus diagnostics.

IPv4 string parsing and CIDR range arithmetic live in the third-party
`ip-num` library, which is not part of the repository's sources; those
pieces are modelled from the specification (four dot-separated decimal
octets 0–255; range first/last via the prefix mask over 32-bit unsigned
arithmetic; closed-interval containment).  Everything else is translated
directly from the TypeScript sources.
-/

namespace IscToKea

/-! ## Character/string helpers mirroring the JavaScript primitives -/

/-- The method `String.prototype.split('.')` on a character list: splits on every `'.'`,
keeping empty pieces, exactly as JavaScript `split` does. -/
def splitDotGo : List Char → List Char → List (List Char)
  | [], acc => [acc.reverse]
  | c :: rest, acc =>
      if c = '.' then acc.reverse :: splitDotGo rest []
      else splitDotGo rest (c :: acc)

/-- The split `s.split('.')` of a character list. -/
def splitOnDot (l : List Char) : List (List Char) := splitDotGo l []

/-- Decimal value of a digit string (JS `Number`/`parseInt` on all-digit input). -/
def digitsVal (l : List Char) : Nat := l.foldl (fun a c => a * 10 + (c.toNat - 48)) 0

/-- Every character is a decimal digit. -/
def allDigits (l : List Char) : Bool := l.all (fun c => c.isDigit)

/-- JS `Number(str)` restricted to the strings reachable here (pieces of a
dot-split): `Number('')` is `0`, an all-digit string is its decimal value, and
anything else among the reachable inputs is `NaN`, modelled as `none`. -/
def jsNumber? (l : List Char) : Option Nat :=
  if l.isEmpty then some 0
  else if allDigits l then some (digitsVal l) else none

/-! ## IPv4 addresses and CIDR ranges (modelled from the spec) -/

/-- Modelled from the spec: one octet of `isValidIPv4`'s "exactly four
dot-separated decimal octets, each in 0–255" — a non-empty all-digit piece
whose value is at most 255, mapped to that value. -/
def ipv4OctetVal? (l : List Char) : Option Nat :=
  if !l.isEmpty && allDigits l then
    let v := digitsVal l
    if v ≤ 255 then some v else none
  else none

/-- Modelled from the spec: parsing an IPv4 dotted-quad string to its 32-bit
unsigned value ("address → uint32"); stands in for `new IPv4(s)` of the
`ip-num` library, which is not part of the repository's sources.  Succeeds
exactly on four dot-separated decimal octets each in 0–255, with no leading
or trailing content. -/
def parseIPv4 (s : String) : Option Nat :=
  match (splitOnDot s.toList).mapM ipv4OctetVal? with
  | some [a, b, c, d] => some (((a * 256 + b) * 256 + c) * 256 + d)
  | _ => none

/-- The predicate `SubnetMatcher.isValidIP` (src/cidr.ts:111-118): `new IPv4(s)` succeeds. -/
def isValidIP (s : String) : Bool := (parseIPv4 s).isSome

/-- An IPv4 CIDR range, kept as its first and last 32-bit address values. -/
structure IPv4CidrRange where
  first : Nat
  last : Nat
deriving DecidableEq

/-- Modelled from the spec: the range of `base/pLen` — size `2^(32−pLen)`,
first address obtained by clearing the host bits of `base` (prefix mask),
last address `first + size − 1`.  Stands in for `IPv4CidrRange.fromCidr` of
the `ip-num` library. -/
def fromCidr (base : Nat) (pLen : Nat) : IPv4CidrRange :=
  let size := 2 ^ (32 - pLen)
  let netFirst := base / size * size
  ⟨netFirst, netFirst + size - 1⟩

/-- Modelled from the spec: closed-interval containment
"[first address, last address] interval contains the address (32-bit unsigned
integer comparison)"; stands in for `ip-num`'s `IPv4CidrRange.contains`. -/
def rangeContains (r : IPv4CidrRange) (v : Nat) : Bool :=
  decide (r.first ≤ v) && decide (v ≤ r.last)

/-! ## Netmask → prefix conversion (src/cidr.ts:58-80) -/

/-- The 8-character binary string `octet.toString(2).padStart(8, '0')` of an
octet value (most significant bit first), as a bit list; faithful for the
values at most 255 that pass the octet range guard. -/
def natBits8 (n : Nat) : List Bool :=
  [n.testBit 7, n.testBit 6, n.testBit 5, n.testBit 4,
   n.testBit 3, n.testBit 2, n.testBit 1, n.testBit 0]

/-- Length of the `/^1*/` match: the number of leading `true` bits. -/
def leadingOnes (l : List Bool) : Nat := (l.takeWhile (fun b => b)).length

/-- The conversion `SubnetMatcher.netmaskToCIDR` (src/cidr.ts:58-80): split the mask on dots,
require four octets each a number in 0–255, require the joined 32-bit binary
representation to be its leading-ones run followed by zeros, and return the
count of leading ones. -/
def netmaskToCIDR (netmask : String) : Option Nat :=
  let parts := splitOnDot netmask.toList
  if parts.length ≠ 4 then none
  else
    match parts.mapM jsNumber? with
    | none => none
    | some octets =>
        if octets.any (fun o => 255 < o) then none
        else
          let binary := (octets.map natBits8).flatten
          let ones := leadingOnes binary
          if binary = List.replicate ones true ++ List.replicate (32 - ones) false
          then some ones else none

/-! ## Building CIDR ranges from subnet records (src/cidr.ts:28-56) -/

/-- The guard `/^\d+$/.test(netmask)`. -/
def isDigitsOnly (l : List Char) : Bool := !l.isEmpty && allDigits l

/-- The guard `/^\d{1,3}\.\d{1,3}\.\d{1,3}\.\d{1,3}$/.test(netmask)`. -/
def isDottedQuadMask (l : List Char) : Bool :=
  match splitOnDot l with
  | [a, b, c, d] =>
      [a, b, c, d].all (fun p => !p.isEmpty && p.length ≤ 3 && allDigits p)
  | _ => false

/-- The builder `SubnetMatcher.buildCIDR` (src/cidr.ts:28-56): validate the base address,
then read the mask either as a bare prefix-length literal (rejected outside
0–32) or as a dotted-quad netmask put through `netmaskToCIDR`. -/
def buildCIDR (subnet : String) (netmask : String) : Option IPv4CidrRange :=
  match parseIPv4 subnet with
  | none => none
  | some base =>
      if isDigitsOnly netmask.toList then
        let pLen := digitsVal netmask.toList
        if 32 < pLen then none else some (fromCidr base pLen)
      else if isDottedQuadMask netmask.toList then
        match netmaskToCIDR netmask with
        | none => none
        | some p => some (fromCidr base p)
      else none

/-! ## The subnet matcher (src/cidr.ts) -/

/-- A subnet record (src/types.ts `Subnet`). -/
structure Subnet where
  uuid : String
  subnet : String
  netmask : String
deriving DecidableEq

/-- A JavaScript `Map` as an insertion-ordered association list: `set` on a
present key updates the value in place, otherwise appends. -/
def mapSet {α : Type} (m : List (String × α)) (k : String) (v : α) :
    List (String × α) :=
  if m.any (fun p => p.1 == k) then
    m.map (fun p => if p.1 == k then (k, v) else p)
  else m ++ [(k, v)]

/-- The state of a `SubnetMatcher`: the `subnets` and `subnetMetadata` maps. -/
structure SubnetMatcher where
  subnets : List (String × IPv4CidrRange)
  subnetMetadata : List (String × Subnet)
deriving DecidableEq

/-- The loop body of `SubnetMatcher.buildSubnetMap` (src/cidr.ts:12-26):
subnets whose `buildCIDR` fails are dropped with a console warning only. -/
def buildGo : SubnetMatcher → List Subnet → SubnetMatcher
  | acc, [] => acc
  | acc, s :: rest =>
      match buildCIDR s.subnet s.netmask with
      | some cidr =>
          buildGo ⟨mapSet acc.subnets s.uuid cidr, mapSet acc.subnetMetadata s.uuid s⟩ rest
      | none => buildGo acc rest

/-- The constructor of `SubnetMatcher`, i.e. `buildSubnetMap` (src/cidr.ts:8-26). -/
def buildSubnetMap (subnets : List Subnet) : SubnetMatcher :=
  buildGo ⟨[], []⟩ subnets

/-- The query `SubnetMatcher.findSubnetForIP` (src/cidr.ts:82-97): parse the address
(`none` on failure), then return the uuid of the first retained range that
contains it, in map iteration (construction) order. -/
def findSubnetForIP (m : SubnetMatcher) (ipAddress : String) : Option String :=
  match parseIPv4 ipAddress with
  | none => none
  | some v => (m.subnets.find? (fun p => rangeContains p.2 v)).map Prod.fst

/-- The accessor `SubnetMatcher.getAllSubnets` (src/cidr.ts:103-105). -/
def getAllSubnets (m : SubnetMatcher) : List Subnet :=
  m.subnetMetadata.map Prod.snd

/-- The subnet records retained at construction (those whose `buildCIDR`
succeeds), paired with their ranges, in input order. -/
def retainedRanges (subnets : List Subnet) : List (String × IPv4CidrRange) :=
  subnets.filterMap (fun s => (buildCIDR s.subnet s.netmask).map (fun c => (s.uuid, c)))

/-! ## MAC validation (src/migrator.ts:105-112) -/

/-- The character class `[0-9A-Fa-f]`. -/
def isHexDigitChar (c : Char) : Bool :=
  ('0' ≤ c && c ≤ '9') || ('A' ≤ c && c ≤ 'F') || ('a' ≤ c && c ≤ 'f')

/-- The character class `[:-]`. -/
def isSepChar (c : Char) : Bool := c == ':' || c == '-'

/-- The regex `/^([0-9A-Fa-f]{2}[:-]){5}([0-9A-Fa-f]{2})$/`: seventeen
characters, alternating two hex digits and one separator, each separator
matched independently. -/
def macColonDash : List Char → Bool
  | [a1, a2, s1, b1, b2, s2, c1, c2, s3, d1, d2, s4, e1, e2, s5, f1, f2] =>
      isHexDigitChar a1 && isHexDigitChar a2 && isSepChar s1 &&
      isHexDigitChar b1 && isHexDigitChar b2 && isSepChar s2 &&
      isHexDigitChar c1 && isHexDigitChar c2 && isSepChar s3 &&
      isHexDigitChar d1 && isHexDigitChar d2 && isSepChar s4 &&
      isHexDigitChar e1 && isHexDigitChar e2 && isSepChar s5 &&
      isHexDigitChar f1 && isHexDigitChar f2
  | _ => false

/-- The regex `/^[0-9A-Fa-f]{12}$/`. -/
def macBare (l : List Char) : Bool :=
  l.length == 12 && l.all isHexDigitChar

/-- The predicate `DHCPMigrator.isValidMAC` (src/migrator.ts:105-112): either regex. -/
def isValidMAC (s : String) : Bool :=
  macColonDash s.toList || macBare s.toList

/-! ## The migration engine (src/migrator.ts) -/

/-- A static-mapping record (src/types.ts `StaticMapping`); optional fields
are `Option`s, a JavaScript `undefined` being `none`. -/
structure StaticMapping where
  mac : String
  ipaddr : String
  hostname : Option String := none
  description : Option String := none
  cid : Option String := none
  descr : Option String := none
deriving DecidableEq

/-- A reservation record (src/types.ts `Reservation`). -/
structure Reservation where
  uuid : String
  subnet : String
  hw_address : String
  ip_address : String
  hostname : Option String := none
  description : Option String := none
deriving DecidableEq

/-- The migration result (src/types.ts `MigrationResult`). -/
structure MigrationResult where
  reservations : List Reservation
  reservationsCreated : Nat
  unmatchedIPs : List String
  warnings : List String
  errors : List String
deriving DecidableEq

/-- JavaScript truthiness of an optional string: present and non-empty. -/
def jsTruthy : Option String → Bool
  | none => false
  | some s => !(s == "")

/-- The missing-required-fields warning text (src/migrator.ts:34). -/
def missingFieldsMsg (i : Nat) (mp : StaticMapping) : String :=
  "Skipping mapping #" ++ toString (i + 1) ++ ": Missing required fields (mac: " ++
    mp.mac ++ ", ip: " ++ mp.ipaddr ++ ")"

/-- The invalid-MAC warning text (src/migrator.ts:43). -/
def invalidMacMsg (mp : StaticMapping) : String :=
  "Invalid MAC address format: " ++ mp.mac ++ " (IP: " ++ mp.ipaddr ++ ")"

/-- The invalid-IP error text (src/migrator.ts:52). -/
def invalidIpMsg (mp : StaticMapping) : String :=
  "Invalid IP address: " ++ mp.ipaddr ++ " (MAC: " ++ mp.mac ++ ")"

/-- The no-subnet-found warning text (src/migrator.ts:64). -/
def noSubnetMsg (mp : StaticMapping) : String :=
  "No subnet found for IP: " ++ mp.ipaddr ++ " (MAC: " ++ mp.mac ++
    (if jsTruthy mp.hostname then ", hostname: " ++ mp.hostname.getD "" else "") ++ ")"

/-- Building one reservation (src/migrator.ts:72-84): hostname and
description are carried over only when truthy; `description || descr`
prefers `description`. -/
def mkReservation (uuid : String) (subnetUUID : String) (mp : StaticMapping) :
    Reservation :=
  { uuid := uuid
    subnet := subnetUUID
    hw_address := mp.mac
    ip_address := mp.ipaddr
    hostname := if jsTruthy mp.hostname then mp.hostname else none
    description :=
      if jsTruthy mp.description then mp.description
      else if jsTruthy mp.descr then mp.descr
      else none }

/-- The loop of `DHCPMigrator.migrate` (src/migrator.ts:30-94).  `i` is the
loop index, `k` counts reservations created so far, and `gen k` stands for
the `randomUUID()` drawn for the `k`-th reservation.  The unmatched guard
`if (!subnetUUID)` (src/migrator.ts:62) tests JS truthiness, so both a
`null` lookup result and an empty-string uuid take the unmatched branch.
Returns (reservations, unmatchedIPs, warnings, errors). -/
def migrateGo (m : SubnetMatcher) (gen : Nat → String) :
    List StaticMapping → Nat → Nat →
    List Reservation × List String × List String × List String
  | [], _, _ => ([], [], [], [])
  | mp :: rest, i, k =>
      if mp.mac = "" ∨ mp.ipaddr = "" then
        let r := migrateGo m gen rest (i + 1) k
        (r.1, r.2.1, missingFieldsMsg i mp :: r.2.2.1, r.2.2.2)
      else if isValidMAC mp.mac = false then
        let r := migrateGo m gen rest (i + 1) k
        (r.1, r.2.1, invalidMacMsg mp :: r.2.2.1, r.2.2.2)
      else if isValidIP mp.ipaddr = false then
        let r := migrateGo m gen rest (i + 1) k
        (r.1, r.2.1, r.2.2.1, invalidIpMsg mp :: r.2.2.2)
      else
        match findSubnetForIP m mp.ipaddr with
        | none =>
            let r := migrateGo m gen rest (i + 1) k
            (r.1, mp.ipaddr :: r.2.1, noSubnetMsg mp :: r.2.2.1, r.2.2.2)
        | some subnetUUID =>
            if subnetUUID = "" then
              let r := migrateGo m gen rest (i + 1) k
              (r.1, mp.ipaddr :: r.2.1, noSubnetMsg mp :: r.2.2.1, r.2.2.2)
            else
              let r := migrateGo m gen rest (i + 1) (k + 1)
              (mkReservation (gen k) subnetUUID mp :: r.1, r.2.1, r.2.2.1, r.2.2.2)

/-- The engine entry point `DHCPMigrator.migrate` (src/migrator.ts:20-103). -/
def migrate (m : SubnetMatcher) (gen : Nat → String)
    (staticMappings : List StaticMapping) : MigrationResult :=
  let r := migrateGo m gen staticMappings 0 0
  { reservations := r.1
    reservationsCreated := r.1.length
    unmatchedIPs := r.2.1
    warnings := r.2.2.1
    errors := r.2.2.2 }

/-- The five mutually exclusive terminal outcomes of the per-mapping state
machine. -/
inductive Outcome where
  | missingFields
  | invalidMAC
  | invalidIP
  | unmatched
  | success
deriving DecidableEq

/-- The branch of `migrate`'s loop body a mapping takes, read off the nested
guards of src/migrator.ts:33-94 in their order; the unmatched guard is the
JS truthiness test `if (!subnetUUID)`, false for both a `null` lookup result
and an empty-string uuid. -/
def classify (m : SubnetMatcher) (mp : StaticMapping) : Outcome :=
  if mp.mac = "" ∨ mp.ipaddr = "" then .missingFields
  else if isValidMAC mp.mac = false then .invalidMAC
  else if isValidIP mp.ipaddr = false then .invalidIP
  else if jsTruthy (findSubnetForIP m mp.ipaddr) = false then .unmatched
  else .success

/-! ## Stats and pre-flight validation (src/migrator.ts:114-178) -/

/-- The summary counts (src/types.ts `MigrationStats`).  `failedMigrations`
is a JavaScript subtraction, so it is an integer. -/
structure MigrationStats where
  totalStaticMappings : Nat
  totalSubnets : Nat
  successfulMigrations : Nat
  failedMigrations : Int
  unmatchedIPs : Nat
  warnings : Nat
  errors : Nat
deriving DecidableEq

/-- The summary `DHCPMigrator.getStats` (src/migrator.ts:114-129).  Reads the migrator's
subnet matcher (for `totalSubnets`) besides its two arguments. -/
def getStats (m : SubnetMatcher) (staticMappings : List StaticMapping)
    (result : MigrationResult) : MigrationStats :=
  { totalStaticMappings := staticMappings.length
    totalSubnets := (getAllSubnets m).length
    successfulMigrations := result.reservationsCreated
    failedMigrations := (staticMappings.length : Int) - result.reservationsCreated
    unmatchedIPs := result.unmatchedIPs.length
    warnings := result.warnings.length
    errors := result.errors.length }

/-- The no-subnets issue text (src/migrator.ts:156). -/
def noSubnetsIssue : String := "No Kea subnets found in configuration"

/-- The no-mappings issue text (src/migrator.ts:160). -/
def noMappingsIssue : String := "No ISC DHCP static mappings found in configuration"

/-- The no-valid-mappings issue text (src/migrator.ts:171). -/
def noValidMappingsIssue : String :=
  "No valid static mappings found (missing MAC or IP addresses)"

/-- The pre-flight check `DHCPMigrator.validateMigration` (src/migrator.ts:148-178): push the
three issues in order, `valid` iff none was pushed.  A mapping counts as
valid when both `mac` and `ipaddr` are truthy. -/
def validateMigration (m : SubnetMatcher) (staticMappings : List StaticMapping) :
    Bool × List String :=
  let issues :=
    (if (getAllSubnets m).length = 0 then [noSubnetsIssue] else []) ++
    (if staticMappings.length = 0 then [noMappingsIssue] else []) ++
    (if (staticMappings.countP (fun mp => !(mp.mac == "") && !(mp.ipaddr == ""))) = 0 ∧
        staticMappings.length > 0
     then [noValidMappingsIssue] else [])
  (issues.isEmpty, issues)

/-! ## Spec-side predicates and proof-side helper definitions -/

/-- Re-join the pieces of a dot-split with dots. -/
def unsplitDot : List (List Char) → List Char
  | [] => []
  | [p] => p
  | p :: ps => p ++ '.' :: unsplitDot ps

/-- A valid IPv4 octet piece in the sense of the spec: non-empty, all
decimal digits, decimal value at most 255. -/
def ValidOctet (p : List Char) : Prop :=
  p ≠ [] ∧ (∀ c ∈ p, c.isDigit = true) ∧ digitsVal p ≤ 255

/-- Two hexadecimal digits, as the regex group `[0-9A-Fa-f]{2}`. -/
def TwoHex (l : List Char) : Prop :=
  ∃ x y : Char, l = [x, y] ∧ isHexDigitChar x = true ∧ isHexDigitChar y = true

/-- The spec's hardware-address syntax: six colon- or dash-separated
2-hex-digit groups (each separator independent), or a bare 12-hex-digit
string. -/
def MacSpec (s : String) : Prop :=
  (∃ g1 g2 g3 g4 g5 g6 : List Char, ∃ s1 s2 s3 s4 s5 : Char,
      TwoHex g1 ∧ TwoHex g2 ∧ TwoHex g3 ∧ TwoHex g4 ∧ TwoHex g5 ∧ TwoHex g6 ∧
      isSepChar s1 = true ∧ isSepChar s2 = true ∧ isSepChar s3 = true ∧
      isSepChar s4 = true ∧ isSepChar s5 = true ∧
      s.toList = g1 ++ s1 :: (g2 ++ s2 :: (g3 ++ s3 :: (g4 ++ s4 :: (g5 ++ s5 :: g6))))) ∨
  (s.toList.length = 12 ∧ ∀ c ∈ s.toList, isHexDigitChar c = true)

/-- Value of a most-significant-bit-first bit list. -/
def bitsVal (l : List Bool) : Nat :=
  l.foldl (fun acc bt => 2 * acc + bt.toNat) 0

/-- The outcomes that push onto `warnings`. -/
def warnClass : Outcome → Bool
  | .missingFields => true
  | .invalidMAC => true
  | .unmatched => true
  | _ => false

/-- The warning a mapping at loop index `i` contributes, if any. -/
def warnOut (m : SubnetMatcher) (i : Nat) (mp : StaticMapping) : Option String :=
  match classify m mp with
  | .missingFields => some (missingFieldsMsg i mp)
  | .invalidMAC => some (invalidMacMsg mp)
  | .unmatched => some (noSubnetMsg mp)
  | _ => none

/-- The error a mapping contributes, if any. -/
def errOut (m : SubnetMatcher) (mp : StaticMapping) : Option String :=
  match classify m mp with
  | .invalidIP => some (invalidIpMsg mp)
  | _ => none

/-! ## Dot-splitting and `mapM` infrastructure -/

theorem splitDotGo_ne_nil (l acc) : splitDotGo l acc ≠ [] := by
  induction l generalizing acc with
  | nil => simp [splitDotGo]
  | cons c rest ih =>
      unfold splitDotGo
      split
      · simp
      · exact ih _

theorem splitDotGo_no_dot (l acc) (h : '.' ∉ l) :
    splitDotGo l acc = [acc.reverse ++ l] := by
  induction l generalizing acc with
  | nil => simp [splitDotGo]
  | cons c rest ih =>
      have hc : c ≠ '.' := fun hcc => h (hcc ▸ List.mem_cons_self c rest)
      have hr : '.' ∉ rest := fun hm => h (List.mem_cons_of_mem c hm)
      simp [splitDotGo, hc, ih _ hr]

theorem splitDotGo_dot_split (p rest acc) (h : '.' ∉ p) :
    splitDotGo (p ++ '.' :: rest) acc = (acc.reverse ++ p) :: splitDotGo rest [] := by
  induction p generalizing acc with
  | nil => simp [splitDotGo]
  | cons c t ih =>
      have hc : c ≠ '.' := fun hcc => h (hcc ▸ List.mem_cons_self c t)
      have ht : '.' ∉ t := fun hm => h (List.mem_cons_of_mem c hm)
      simp [splitDotGo, hc, ih _ ht]

theorem unsplitDot_cons_of_ne_nil (p : List Char) (ps : List (List Char))
    (h : ps ≠ []) : unsplitDot (p :: ps) = p ++ '.' :: unsplitDot ps := by
  match ps with
  | [] => exact absurd rfl h
  | q :: ps' => rfl

theorem unsplitDot_splitDotGo (l acc) :
    unsplitDot (splitDotGo l acc) = acc.reverse ++ l := by
  induction l generalizing acc with
  | nil => simp [splitDotGo, unsplitDot]
  | cons c rest ih =>
      unfold splitDotGo
      split
      · next hc =>
          subst hc
          rw [unsplitDot_cons_of_ne_nil _ _ (splitDotGo_ne_nil _ _), ih []]
          simp
      · next hc =>
          rw [ih (c :: acc)]
          simp

theorem unsplitDot_splitOnDot (l) : unsplitDot (splitOnDot l) = l := by
  simpa using unsplitDot_splitDotGo l []

theorem mapM_option_eq_some {α β : Type} (f : α → Option β) :
    ∀ (l : List α) (r : List β),
      l.mapM f = some r ↔ List.Forall₂ (fun a b => f a = some b) l r := by
  intro l
  induction l with
  | nil =>
      intro r
      rw [List.mapM_nil]
      constructor
      · intro h
        simp only [Option.pure_def, Option.some.injEq] at h
        subst h
        exact .nil
      · intro h
        cases h
        rfl
  | cons a t ih =>
      intro r
      rw [List.mapM_cons]
      constructor
      · intro h
        cases hfa : f a with
        | none => rw [hfa] at h; simp at h
        | some v =>
            rw [hfa] at h; simp only [Option.bind_eq_bind, Option.some_bind] at h
            cases hmt : List.mapM f t with
            | none => rw [hmt] at h; simp at h
            | some vs =>
                rw [hmt] at h; simp only [Option.bind_eq_bind, Option.some_bind] at h
                simp only [Option.pure_def, Option.some.injEq] at h
                subst h
                exact .cons hfa ((ih vs).mp hmt)
      · intro h
        cases h with
        | cons hfa ht =>
            rw [hfa, (ih _).mpr ht]
            simp only [Option.bind_eq_bind, Option.some_bind]
            rfl

theorem ipv4OctetVal_eq_some (p v) :
    ipv4OctetVal? p = some v ↔ ValidOctet p ∧ v = digitsVal p := by
  unfold ipv4OctetVal? ValidOctet
  rcases p with _ | ⟨c, t⟩
  · simp
  · simp only [List.isEmpty_cons, Bool.not_false, Bool.true_and, allDigits, List.all_eq_true]
    split
    · next hall =>
        split
        · next hle => simp_all; omega
        · next hle => simp_all
    · next hall =>
        simp only [reduceCtorEq, false_iff, not_and]
        intro h1 h2
        simp_all

theorem no_dot_of_digits (p : List Char) (h : ∀ c ∈ p, c.isDigit = true) : '.' ∉ p := by
  intro hm
  have := h _ hm
  simp [Char.isDigit] at this

/-- C9: `isValidIP` accepts exactly the strings made of four dot-separated
decimal octets each with value 0–255, with no leading or trailing content. -/
theorem isValidIP_iff (s : String) :
    isValidIP s = true ↔
      ∃ p1 p2 p3 p4 : List Char,
        s.toList = p1 ++ '.' :: (p2 ++ '.' :: (p3 ++ '.' :: p4)) ∧
        ValidOctet p1 ∧ ValidOctet p2 ∧ ValidOctet p3 ∧ ValidOctet p4 := by
  unfold isValidIP parseIPv4
  constructor
  · intro h
    split at h
    · next a b c d heq =>
        obtain ⟨parts, hparts, heq⟩ : ∃ parts, splitOnDot s.toList = parts ∧
            parts.mapM ipv4OctetVal? = some [a, b, c, d] := ⟨_, rfl, heq⟩
        rw [mapM_option_eq_some] at heq
        rcases heq with _ | @⟨p1, _, t1, _, h1,
          _ | @⟨p2, _, t2, _, h2, _ | @⟨p3, _, t3, _, h3, _ | @⟨p4, _, t4, _, h4, hnil⟩⟩⟩⟩
        cases hnil
        rw [ipv4OctetVal_eq_some] at h1 h2 h3 h4
        refine ⟨p1, p2, p3, p4, ?_, h1.1, h2.1, h3.1, h4.1⟩
        have hrec := unsplitDot_splitOnDot s.toList
        rw [hparts] at hrec
        have hred : unsplitDot [p1, p2, p3, p4] =
            p1 ++ '.' :: (p2 ++ '.' :: (p3 ++ '.' :: p4)) := rfl
        rw [hred] at hrec
        exact hrec.symm
    · simp at h
  · rintro ⟨p1, p2, p3, p4, hdec, h1, h2, h3, h4⟩
    have hs : splitOnDot s.toList = [p1, p2, p3, p4] := by
      rw [hdec]
      unfold splitOnDot
      rw [splitDotGo_dot_split _ _ _ (no_dot_of_digits _ h1.2.1),
        splitDotGo_dot_split _ _ _ (no_dot_of_digits _ h2.2.1),
        splitDotGo_dot_split _ _ _ (no_dot_of_digits _ h3.2.1),
        splitDotGo_no_dot _ _ (no_dot_of_digits _ h4.2.1)]
      simp
    rw [hs]
    have hmm : [p1, p2, p3, p4].mapM ipv4OctetVal? =
        some [digitsVal p1, digitsVal p2, digitsVal p3, digitsVal p4] := by
      rw [mapM_option_eq_some]
      exact .cons ((ipv4OctetVal_eq_some _ _).mpr ⟨h1, rfl⟩)
        (.cons ((ipv4OctetVal_eq_some _ _).mpr ⟨h2, rfl⟩)
          (.cons ((ipv4OctetVal_eq_some _ _).mpr ⟨h3, rfl⟩)
            (.cons ((ipv4OctetVal_eq_some _ _).mpr ⟨h4, rfl⟩) .nil)))
    rw [hmm]
    rfl

/-! ## C4 and C10: hardware-address validation -/

theorem macColonDash_eq_true (l : List Char) :
    macColonDash l = true ↔
      ∃ g1 g2 g3 g4 g5 g6 : List Char, ∃ s1 s2 s3 s4 s5 : Char,
        TwoHex g1 ∧ TwoHex g2 ∧ TwoHex g3 ∧ TwoHex g4 ∧ TwoHex g5 ∧ TwoHex g6 ∧
        isSepChar s1 = true ∧ isSepChar s2 = true ∧ isSepChar s3 = true ∧
        isSepChar s4 = true ∧ isSepChar s5 = true ∧
        l = g1 ++ s1 :: (g2 ++ s2 :: (g3 ++ s3 :: (g4 ++ s4 :: (g5 ++ s5 :: g6)))) := by
  constructor
  · intro h
    rcases l with _ | ⟨a1, _ | ⟨a2, _ | ⟨s1, _ | ⟨b1, _ | ⟨b2, _ | ⟨s2, _ | ⟨c1, _ | ⟨c2,
      _ | ⟨s3, _ | ⟨d1, _ | ⟨d2, _ | ⟨s4, _ | ⟨e1, _ | ⟨e2, _ | ⟨s5, _ | ⟨f1, _ | ⟨f2,
      _ | ⟨x, rest⟩⟩⟩⟩⟩⟩⟩⟩⟩⟩⟩⟩⟩⟩⟩⟩⟩⟩ <;>
      first
      | exact Bool.noConfusion h
      | · simp only [macColonDash, Bool.and_eq_true] at h
          obtain ⟨⟨⟨⟨⟨⟨⟨⟨⟨⟨⟨⟨⟨⟨⟨⟨ha1, ha2⟩, hs1⟩, hb1⟩, hb2⟩, hs2⟩, hc1⟩, hc2⟩, hs3⟩,
            hd1⟩, hd2⟩, hs4⟩, he1⟩, he2⟩, hs5⟩, hf1⟩, hf2⟩ := h
          exact ⟨[a1, a2], [b1, b2], [c1, c2], [d1, d2], [e1, e2], [f1, f2],
            s1, s2, s3, s4, s5,
            ⟨a1, a2, rfl, ha1, ha2⟩, ⟨b1, b2, rfl, hb1, hb2⟩, ⟨c1, c2, rfl, hc1, hc2⟩,
            ⟨d1, d2, rfl, hd1, hd2⟩, ⟨e1, e2, rfl, he1, he2⟩, ⟨f1, f2, rfl, hf1, hf2⟩,
            hs1, hs2, hs3, hs4, hs5, rfl⟩
  · rintro ⟨g1, g2, g3, g4, g5, g6, s1, s2, s3, s4, s5,
      ⟨a1, a2, rfl, ha1, ha2⟩, ⟨b1, b2, rfl, hb1, hb2⟩, ⟨c1, c2, rfl, hc1, hc2⟩,
      ⟨d1, d2, rfl, hd1, hd2⟩, ⟨e1, e2, rfl, he1, he2⟩, ⟨f1, f2, rfl, hf1, hf2⟩,
      hs1, hs2, hs3, hs4, hs5, rfl⟩
    show (isHexDigitChar a1 && isHexDigitChar a2 && isSepChar s1 &&
      isHexDigitChar b1 && isHexDigitChar b2 && isSepChar s2 &&
      isHexDigitChar c1 && isHexDigitChar c2 && isSepChar s3 &&
      isHexDigitChar d1 && isHexDigitChar d2 && isSepChar s4 &&
      isHexDigitChar e1 && isHexDigitChar e2 && isSepChar s5 &&
      isHexDigitChar f1 && isHexDigitChar f2) = true
    simp [ha1, ha2, hb1, hb2, hc1, hc2, hd1, hd2, he1, he2, hf1, hf2,
      hs1, hs2, hs3, hs4, hs5]

/-- C4: `isValidMAC` accepts exactly the strings matching one of the two
regexes — six colon- or dash-separated 2-hex-digit groups or a bare
12-hex-digit string — and in particular accepts `00:11:22:33:44:55`,
`00-11-22-33-44-55` and `001122334455`, and rejects `00:11:22:33:44`
(short) and `ZZ:11:22:33:44:55` (non-hex). -/
theorem isValidMAC_iff :
    (∀ s : String, isValidMAC s = true ↔ MacSpec s) ∧
    isValidMAC "00:11:22:33:44:55" = true ∧
    isValidMAC "00-11-22-33-44-55" = true ∧
    isValidMAC "001122334455" = true ∧
    isValidMAC "00:11:22:33:44" = false ∧
    isValidMAC "ZZ:11:22:33:44:55" = false := by
  refine ⟨?_, by decide, by decide, by decide, by decide, by decide⟩
  intro s
  unfold isValidMAC MacSpec
  rw [Bool.or_eq_true, macColonDash_eq_true]
  constructor
  · rintro (h | h)
    · exact Or.inl h
    · refine Or.inr ?_
      unfold macBare at h
      simp only [Bool.and_eq_true, beq_iff_eq, List.all_eq_true] at h
      exact ⟨h.1, h.2⟩
  · rintro (h | h)
    · exact Or.inl h
    · refine Or.inr ?_
      unfold macBare
      simp only [Bool.and_eq_true, beq_iff_eq, List.all_eq_true]
      exact ⟨h.1, h.2⟩

/-- C10: the two separator slots of the colon/dash pattern are matched
independently, so mixed separators are accepted: any string of six
2-hex-digit groups with each separator either `:` or `-` passes
`isValidMAC`. -/
theorem isValidMAC_mixed_separators (s : String) (s1 s2 s3 s4 s5 : Char)
    (h1 : isSepChar s1 = true) (h2 : isSepChar s2 = true)
    (h3 : isSepChar s3 = true) (h4 : isSepChar s4 = true)
    (h5 : isSepChar s5 = true)
    (hs : s.toList = ['0', '0', s1, '1', '1', s2, '2', '2', s3,
                      '3', '3', s4, '4', '4', s5, '5', '5']) :
    isValidMAC s = true := by
  unfold isValidMAC
  rw [hs]
  show (macColonDash ['0', '0', s1, '1', '1', s2, '2', '2', s3,
      '3', '3', s4, '4', '4', s5, '5', '5'] ||
    macBare ['0', '0', s1, '1', '1', s2, '2', '2', s3,
      '3', '3', s4, '4', '4', s5, '5', '5']) = true
  have : macColonDash ['0', '0', s1, '1', '1', s2, '2', '2', s3,
      '3', '3', s4, '4', '4', s5, '5', '5'] = true := by
    show (isHexDigitChar '0' && isHexDigitChar '0' && isSepChar s1 &&
      isHexDigitChar '1' && isHexDigitChar '1' && isSepChar s2 &&
      isHexDigitChar '2' && isHexDigitChar '2' && isSepChar s3 &&
      isHexDigitChar '3' && isHexDigitChar '3' && isSepChar s4 &&
      isHexDigitChar '4' && isHexDigitChar '4' && isSepChar s5 &&
      isHexDigitChar '5' && isHexDigitChar '5') = true
    simp [h1, h2, h3, h4, h5]
    decide
  simp [this]

/-- Witness for C10 at a concrete mixed-separator address. -/
theorem isValidMAC_mixed_separators_witness :
    isValidMAC "00:11-22:33-44:55" = true :=
  isValidMAC_mixed_separators "00:11-22:33-44:55" ':' '-' ':' '-' ':'
    (by decide) (by decide) (by decide) (by decide) (by decide) (by decide)

/-! ## C8: pre-flight validation -/

/-- C8: `validateMigration` is valid exactly when it reports no issues; the
no-subnets issue appears iff the matcher retained zero ranges, the
no-mappings issue iff the input list is empty, and the no-valid-mappings
issue iff the list is non-empty and every mapping lacks a hardware address
or an IP.  (In the embedding it is a pure function of the matcher and the
mapping list, so it throws nothing and mutates nothing.) -/
theorem validateMigration_spec (m : SubnetMatcher) (maps : List StaticMapping) :
    ((validateMigration m maps).1 = true ↔ (validateMigration m maps).2 = []) ∧
    (noSubnetsIssue ∈ (validateMigration m maps).2 ↔ getAllSubnets m = []) ∧
    (noMappingsIssue ∈ (validateMigration m maps).2 ↔ maps = []) ∧
    (noValidMappingsIssue ∈ (validateMigration m maps).2 ↔
      maps ≠ [] ∧ ∀ mp ∈ maps, mp.mac = "" ∨ mp.ipaddr = "") := by
  have hne1 : noSubnetsIssue ≠ noMappingsIssue := by decide
  have hne2 : noSubnetsIssue ≠ noValidMappingsIssue := by decide
  have hne3 : noMappingsIssue ≠ noValidMappingsIssue := by decide
  have hcntP : (maps.countP (fun mp => !(mp.mac == "") && !(mp.ipaddr == ""))) = 0 ↔
      ∀ mp ∈ maps, mp.mac = "" ∨ mp.ipaddr = "" := by
    rw [List.countP_eq_zero]
    constructor
    · intro h mp hm
      have := h mp hm
      simp only [Bool.and_eq_true, Bool.not_eq_true', beq_eq_false_iff_ne, ne_eq,
        not_and] at this
      by_cases hmac : mp.mac = ""
      · exact Or.inl hmac
      · exact Or.inr (by simpa [hmac] using this)
    · intro h mp hm
      rcases h mp hm with hmac | hip
      · simp [hmac]
      · simp [hip]
  unfold validateMigration
  by_cases c1 : (getAllSubnets m).length = 0 <;>
    by_cases c2 : maps.length = 0 <;>
      by_cases c3 : (maps.countP (fun mp => !(mp.mac == "") && !(mp.ipaddr == ""))) = 0 ∧
        maps.length > 0 <;>
    simp_all [List.length_eq_zero, hcntP, hne1, hne2, hne3, Ne.symm hne1, Ne.symm hne2,
      Ne.symm hne3, List.countP_eq_zero]

/-! ## C1 and C3: subnet matching -/

theorem mapSet_of_not_mem {α : Type} (m : List (String × α)) (k : String) (v : α)
    (h : ∀ p ∈ m, p.1 ≠ k) : mapSet m k v = m ++ [(k, v)] := by
  unfold mapSet
  have : m.any (fun p => p.1 == k) = false := by
    rw [← Bool.not_eq_true, List.any_eq_true]
    rintro ⟨p, hp, hpk⟩
    exact h p hp (by simpa using hpk)
  simp [this]

theorem buildGo_subnets (l : List Subnet) (acc : SubnetMatcher)
    (hnd : (l.map Subnet.uuid).Nodup)
    (hdis : ∀ s ∈ l, ∀ p ∈ acc.subnets, p.1 ≠ s.uuid) :
    (buildGo acc l).subnets = acc.subnets ++ retainedRanges l := by
  induction l generalizing acc with
  | nil => simp [buildGo, retainedRanges]
  | cons s rest ih =>
      have hnd' : (rest.map Subnet.uuid).Nodup := (List.nodup_cons.mp hnd).2
      have hhead : s.uuid ∉ rest.map Subnet.uuid := (List.nodup_cons.mp hnd).1
      unfold buildGo
      cases hbc : buildCIDR s.subnet s.netmask with
      | none =>
          show (buildGo acc rest).subnets = acc.subnets ++ retainedRanges (s :: rest)
          rw [ih acc hnd' (fun s' hs' => hdis s' (List.mem_cons_of_mem s hs'))]
          simp [retainedRanges, List.filterMap_cons, hbc]
      | some cidr =>
          show (buildGo ⟨mapSet acc.subnets s.uuid cidr,
              mapSet acc.subnetMetadata s.uuid s⟩ rest).subnets =
            acc.subnets ++ retainedRanges (s :: rest)
          have hset : mapSet acc.subnets s.uuid cidr = acc.subnets ++ [(s.uuid, cidr)] :=
            mapSet_of_not_mem _ _ _ (fun p hp => hdis s (List.mem_cons_self s rest) p hp)
          have hdis' : ∀ s' ∈ rest, ∀ p ∈ (acc.subnets ++ [(s.uuid, cidr)]), p.1 ≠ s'.uuid := by
            intro s' hs' p hp
            rcases List.mem_append.mp hp with hpa | hpn
            · exact hdis s' (List.mem_cons_of_mem s hs') p hpa
            · have : p = (s.uuid, cidr) := by simpa using hpn
              subst this
              intro hequ
              apply hhead
              have hsu : s.uuid = s'.uuid := hequ
              rw [hsu]
              exact List.mem_map_of_mem Subnet.uuid hs'
          have := ih ⟨acc.subnets ++ [(s.uuid, cidr)], mapSet acc.subnetMetadata s.uuid s⟩
            hnd' hdis'
          rw [hset]
          rw [this]
          simp [retainedRanges, List.filterMap_cons, hbc]

/-- With pairwise distinct uuids (the data-model invariant), the matcher's
subnets map lists exactly the retained ranges in construction order. -/
theorem buildSubnetMap_subnets (subnets : List Subnet)
    (hnd : (subnets.map Subnet.uuid).Nodup) :
    (buildSubnetMap subnets).subnets = retainedRanges subnets := by
  have := buildGo_subnets subnets ⟨[], []⟩ hnd (by intro s _ p hp; simp at hp)
  simpa [buildSubnetMap] using this

/-- C1: for a matcher built from subnet records with distinct ids and an
address contained in two or more retained ranges, `findSubnetForIP` returns
the id of the first retained range in construction order containing it. -/
theorem findSubnetForIP_first_match (subnets : List Subnet) (ip : String) (v : Nat)
    (hnd : (subnets.map Subnet.uuid).Nodup)
    (hip : parseIPv4 ip = some v)
    (hmulti : 2 ≤ (retainedRanges subnets).countP (fun p => rangeContains p.2 v)) :
    ∃ p, (retainedRanges subnets).find? (fun q => rangeContains q.2 v) = some p ∧
      findSubnetForIP (buildSubnetMap subnets) ip = some p.1 := by
  have hsub := buildSubnetMap_subnets subnets hnd
  have hex : ∃ q ∈ retainedRanges subnets, rangeContains q.2 v = true :=
    List.countP_pos_iff.mp (by omega)
  have hfind : ((retainedRanges subnets).find? (fun q => rangeContains q.2 v)).isSome :=
    List.find?_isSome.mpr hex
  obtain ⟨p, hp⟩ := Option.isSome_iff_exists.mp hfind
  refine ⟨p, hp, ?_⟩
  unfold findSubnetForIP
  rw [hip, hsub]
  show ((retainedRanges subnets).find? (fun p => rangeContains p.2 v)).map Prod.fst = some p.1
  rw [hp]
  rfl

/-- Witness for C1: `10.0.0.5` lies in both `10.0.0.0/8` and `10.0.0.0/24`;
the first-constructed subnet wins. -/
theorem findSubnetForIP_first_match_witness :
    ∃ p, (retainedRanges [⟨"uuid-1", "10.0.0.0", "8"⟩, ⟨"uuid-2", "10.0.0.0", "24"⟩]).find?
        (fun q => rangeContains q.2 167772165) = some p ∧
      findSubnetForIP (buildSubnetMap
        [⟨"uuid-1", "10.0.0.0", "8"⟩, ⟨"uuid-2", "10.0.0.0", "24"⟩]) "10.0.0.5" = some p.1 :=
  findSubnetForIP_first_match
    [⟨"uuid-1", "10.0.0.0", "8"⟩, ⟨"uuid-2", "10.0.0.0", "24"⟩] "10.0.0.5" 167772165
    (by decide) (by decide) (by decide)

/-- C3: for a valid address and a matcher built from records with distinct
ids, `findSubnetForIP` finds an id exactly when some retained range contains
the address (closed-interval test); a `/N` range has `2^(32−N)` addresses,
and a `/32` range contains exactly its single host address. -/
theorem findSubnetForIP_containment (subnets : List Subnet) (ip : String) (v : Nat)
    (hnd : (subnets.map Subnet.uuid).Nodup)
    (hip : parseIPv4 ip = some v) :
    ((findSubnetForIP (buildSubnetMap subnets) ip).isSome ↔
        ∃ p ∈ retainedRanges subnets, rangeContains p.2 v = true) ∧
    (∀ base pLen, pLen ≤ 32 →
        (fromCidr base pLen).last + 1 - (fromCidr base pLen).first = 2 ^ (32 - pLen)) ∧
    (∀ base w, rangeContains (fromCidr base 32) w = true ↔ w = base) := by
  refine ⟨?_, ?_, ?_⟩
  · have hsub := buildSubnetMap_subnets subnets hnd
    unfold findSubnetForIP
    rw [hip, hsub]
    show (((retainedRanges subnets).find? (fun p => rangeContains p.2 v)).map Prod.fst).isSome
      = true ↔ _
    simp [List.find?_isSome]
  · intro base pLen _
    unfold fromCidr
    have h1 : 1 ≤ 2 ^ (32 - pLen) := Nat.one_le_two_pow
    simp only
    omega
  · intro base w
    unfold fromCidr rangeContains
    simp only [Nat.sub_self, pow_zero, Nat.div_one, Nat.mul_one, Nat.add_sub_cancel,
      Bool.and_eq_true, decide_eq_true_eq]
    omega

/-- Witness for C3 on `192.168.1.0/24` and the address `192.168.1.77`. -/
theorem findSubnetForIP_containment_witness :
    (((findSubnetForIP (buildSubnetMap [⟨"s1", "192.168.1.0", "24"⟩]) "192.168.1.77").isSome ↔
        ∃ p ∈ retainedRanges [⟨"s1", "192.168.1.0", "24"⟩],
          rangeContains p.2 3232235853 = true)) ∧
    (∀ base pLen, pLen ≤ 32 →
        (fromCidr base pLen).last + 1 - (fromCidr base pLen).first = 2 ^ (32 - pLen)) ∧
    (∀ base w, rangeContains (fromCidr base 32) w = true ↔ w = base) :=
  findSubnetForIP_containment [⟨"s1", "192.168.1.0", "24"⟩] "192.168.1.77" 3232235853
    (by decide) (by decide)

/-! ## C2: netmask to prefix-length conversion -/

theorem bitsVal_go (l : List Bool) (acc : Nat) :
    l.foldl (fun a bt => 2 * a + bt.toNat) acc = acc * 2 ^ l.length + bitsVal l := by
  induction l generalizing acc with
  | nil => simp [bitsVal]
  | cons bh t ih =>
      simp only [List.foldl_cons, List.length_cons, bitsVal]
      rw [ih (2 * acc + bh.toNat), ih (2 * 0 + bh.toNat)]
      ring

theorem bitsVal_cons (bh : Bool) (t : List Bool) :
    bitsVal (bh :: t) = bh.toNat * 2 ^ t.length + bitsVal t := by
  show (bh :: t).foldl (fun a bt => 2 * a + bt.toNat) 0 = _
  simp only [List.foldl_cons]
  rw [bitsVal_go]
  ring

theorem bitsVal_append (l1 l2 : List Bool) :
    bitsVal (l1 ++ l2) = bitsVal l1 * 2 ^ l2.length + bitsVal l2 := by
  show (l1 ++ l2).foldl (fun a bt => 2 * a + bt.toNat) 0 = _
  rw [List.foldl_append, bitsVal_go]
  rfl

theorem bitsVal_lt (l : List Bool) : bitsVal l < 2 ^ l.length := by
  induction l with
  | nil => simp [bitsVal]
  | cons bh t ih =>
      rw [bitsVal_cons]
      have : bh.toNat ≤ 1 := Bool.toNat_le bh
      simp only [List.length_cons, pow_succ]
      nlinarith

theorem bitsVal_replicate_false (m : Nat) : bitsVal (List.replicate m false) = 0 := by
  induction m with
  | zero => simp [bitsVal]
  | succ k ih => rw [List.replicate_succ, bitsVal_cons, ih]; simp

theorem bitsVal_replicate_true (k : Nat) : bitsVal (List.replicate k true) = 2 ^ k - 1 := by
  induction k with
  | zero => simp [bitsVal]
  | succ n ih =>
      rw [List.replicate_succ, bitsVal_cons, ih]
      have : 1 ≤ 2 ^ n := Nat.one_le_two_pow
      simp only [List.length_replicate, Bool.toNat_true, pow_succ]
      omega

theorem bitsVal_contiguous (k m : Nat) :
    bitsVal (List.replicate k true ++ List.replicate m false) = (2 ^ k - 1) * 2 ^ m := by
  rw [bitsVal_append, bitsVal_replicate_true, bitsVal_replicate_false,
    List.length_replicate]
  ring

set_option linter.unnecessarySeqFocus false in
theorem bitsVal_inj (l l' : List Bool) (hlen : l.length = l'.length)
    (h : bitsVal l = bitsVal l') : l = l' := by
  induction l generalizing l' with
  | nil =>
      cases l' with
      | nil => rfl
      | cons b t => simp at hlen
  | cons bh t ih =>
      cases l' with
      | nil => simp at hlen
      | cons bh' t' =>
          simp only [List.length_cons, Nat.add_right_cancel_iff] at hlen
          rw [bitsVal_cons, bitsVal_cons, hlen] at h
          have ht := bitsVal_lt t
          have ht' := bitsVal_lt t'
          rw [hlen] at ht
          have hb : bh = bh' := by
            cases bh <;> cases bh' <;> simp_all <;> omega
          subst hb
          have : bitsVal t = bitsVal t' := by omega
          rw [ih t' hlen this]

set_option maxRecDepth 4096 in
theorem bitsVal_natBits8 : ∀ n < 256, bitsVal (natBits8 n) = n := by decide

theorem leadingOnes_replicate (k m : Nat) :
    leadingOnes (List.replicate k true ++ List.replicate m false) = k := by
  induction k with
  | zero =>
      cases m with
      | zero => simp [leadingOnes]
      | succ j => simp [leadingOnes, List.replicate_succ, List.takeWhile]
  | succ n ih =>
      rw [List.replicate_succ]
      simp only [leadingOnes, List.cons_append, List.takeWhile_cons, List.length_cons]
      simp only [leadingOnes] at ih
      simp [ih]

theorem contiguous_mask_val (k : Nat) (hk : k ≤ 32) :
    (2 ^ k - 1) * 2 ^ (32 - k) = 2 ^ 32 - 2 ^ (32 - k) := by
  have hp : 2 ^ k * 2 ^ (32 - k) = 2 ^ 32 := by
    rw [← pow_add]
    congr 1
    omega
  have h1 : 1 ≤ 2 ^ k := Nat.one_le_two_pow
  rw [Nat.sub_mul, hp]
  simp


/-- C2: on a dotted-quad netmask (four dot-separated numeric octets, each in
0–255), `netmaskToCIDR` succeeds with the count `k` of leading 1-bits exactly
when the 32-bit value of the mask is a left-aligned contiguous run of `k`
1-bits followed by 0-bits, i.e. equals `2^32 − 2^(32−k)`; in particular
`255.255.255.0 → 24`, `255.0.0.0 → 8`, `255.255.255.255 → 32`, while the
non-contiguous `255.0.255.0` is rejected and yields no usable range. -/
theorem netmaskToCIDR_contiguous (s : String) (p1 p2 p3 p4 : List Char)
    (a b c d : Nat)
    (hsplit : splitOnDot s.toList = [p1, p2, p3, p4])
    (h1 : jsNumber? p1 = some a) (h2 : jsNumber? p2 = some b)
    (h3 : jsNumber? p3 = some c) (h4 : jsNumber? p4 = some d)
    (ha : a ≤ 255) (hb : b ≤ 255) (hc : c ≤ 255) (hd : d ≤ 255) :
    (∀ k, netmaskToCIDR s = some k ↔
        k ≤ 32 ∧ ((a * 256 + b) * 256 + c) * 256 + d = 2 ^ 32 - 2 ^ (32 - k)) ∧
    netmaskToCIDR "255.255.255.0" = some 24 ∧
    netmaskToCIDR "255.0.0.0" = some 8 ∧
    netmaskToCIDR "255.255.255.255" = some 32 ∧
    netmaskToCIDR "255.0.255.0" = none ∧
    buildCIDR "10.0.0.0" "255.0.255.0" = none := by
  refine ⟨?_, by decide, by decide, by decide, by decide, by decide⟩
  intro k
  have hmm : [p1, p2, p3, p4].mapM jsNumber? = some [a, b, c, d] :=
    (mapM_option_eq_some _ _ _).mpr
      (.cons h1 (.cons h2 (.cons h3 (.cons h4 .nil))))
  have hany : ([a, b, c, d].any fun o => 255 < o) = false := by
    simp only [List.any_cons, List.any_nil, Bool.or_false, Bool.or_eq_false_iff,
      decide_eq_false_iff_not, Nat.not_lt]
    exact ⟨ha, hb, hc, hd⟩
  unfold netmaskToCIDR
  rw [hsplit]
  show (match List.mapM jsNumber? [p1, p2, p3, p4] with
    | none => none
    | some octets =>
        if (octets.any fun o => 255 < o) = true then none
        else
          let binary := (octets.map natBits8).flatten
          let ones := leadingOnes binary
          if binary = List.replicate ones true ++ List.replicate (32 - ones) false
          then some ones else none) = some k ↔ _
  rw [hmm]
  show (if ([a, b, c, d].any fun o => 255 < o) = true then none
    else
      let binary := ([a, b, c, d].map natBits8).flatten
      let ones := leadingOnes binary
      if binary = List.replicate ones true ++ List.replicate (32 - ones) false
      then some ones else none) = some k ↔ _
  rw [hany, if_neg (by simp)]
  show (if ([a, b, c, d].map natBits8).flatten =
        List.replicate (leadingOnes (([a, b, c, d].map natBits8).flatten)) true ++
          List.replicate (32 - leadingOnes (([a, b, c, d].map natBits8).flatten)) false
      then some (leadingOnes (([a, b, c, d].map natBits8).flatten)) else none) = some k ↔ _
  set B : List Bool := ([a, b, c, d].map natBits8).flatten with hBdef
  have hbl : B.length = 32 := by
    rw [hBdef]
    rfl
  have hbv : bitsVal B =
      ((a * 256 + b) * 256 + c) * 256 + d := by
    have e8 : ∀ x : Nat, (natBits8 x).length = 8 := fun x => rfl
    have hBapp : B = natBits8 a ++ (natBits8 b ++ (natBits8 c ++ natBits8 d)) := by
      rw [hBdef]
      rfl
    rw [hBapp, bitsVal_append, bitsVal_append, bitsVal_append]
    rw [bitsVal_natBits8 a (by omega), bitsVal_natBits8 b (by omega),
      bitsVal_natBits8 c (by omega), bitsVal_natBits8 d (by omega)]
    simp only [List.length_append, e8]
    have e24 : (2 : Nat) ^ (8 + (8 + 8)) = 16777216 := by norm_num
    have e16 : (2 : Nat) ^ (8 + 8) = 65536 := by norm_num
    have e08 : (2 : Nat) ^ 8 = 256 := by norm_num
    rw [e24, e16, e08]
    ring
  constructor
  · intro hsome
    split at hsome
    · next heq =>
        have hkeq : leadingOnes B = k := by
          injection hsome
        have hlen := congrArg List.length heq
        rw [hbl] at hlen
        simp only [List.length_append, List.length_replicate] at hlen
        have hk32 : k ≤ 32 := by omega
        refine ⟨hk32, ?_⟩
        rw [← hbv, heq, hkeq, bitsVal_contiguous, contiguous_mask_val k hk32]
    · exact absurd hsome (by simp)
  · rintro ⟨hk32, hveq⟩
    have hceq : B = List.replicate k true ++ List.replicate (32 - k) false := by
      apply bitsVal_inj
      · rw [hbl]
        simp only [List.length_append, List.length_replicate]
        omega
      · rw [hbv, bitsVal_contiguous, contiguous_mask_val k hk32, hveq]
    have hones : leadingOnes B = k := by
      rw [hceq, leadingOnes_replicate]
    rw [hones, if_pos hceq]


/-- Witness for C2 at the contiguous mask `255.255.254.0` (prefix 23). -/
theorem netmaskToCIDR_contiguous_witness :
    (∀ k, netmaskToCIDR "255.255.254.0" = some k ↔
        k ≤ 32 ∧ ((255 * 256 + 255) * 256 + 254) * 256 + 0 = 2 ^ 32 - 2 ^ (32 - k)) ∧
    netmaskToCIDR "255.255.255.0" = some 24 ∧
    netmaskToCIDR "255.0.0.0" = some 8 ∧
    netmaskToCIDR "255.255.255.255" = some 32 ∧
    netmaskToCIDR "255.0.255.0" = none ∧
    buildCIDR "10.0.0.0" "255.0.255.0" = none :=
  netmaskToCIDR_contiguous "255.255.254.0"
    ['2', '5', '5'] ['2', '5', '5'] ['2', '5', '4'] ['0'] 255 255 254 0
    (by decide) (by decide) (by decide) (by decide) (by decide)
    (by decide) (by decide) (by decide) (by decide)

/-! ## C5, C6 and C7: the migration engine -/

section MigrateLemmas

variable (m : SubnetMatcher) (gen : Nat → String)

theorem migrateGo_res_proj : ∀ (maps : List StaticMapping) (i k : Nat),
    ((migrateGo m gen maps i k).1).map (fun r => (r.hw_address, r.ip_address)) =
      (maps.filter (fun mp => decide (classify m mp = .success))).map
        (fun mp => (mp.mac, mp.ipaddr)) := by
  intro maps
  induction maps with
  | nil => intro i k; simp [migrateGo]
  | cons mp rest ih =>
      intro i k
      by_cases c1 : mp.mac = "" ∨ mp.ipaddr = ""
      · simp [migrateGo, classify, c1, ih]
      · cases c2 : isValidMAC mp.mac with
        | false => simp [migrateGo, classify, c1, c2, ih]
        | true =>
            cases c3 : isValidIP mp.ipaddr with
            | false => simp [migrateGo, classify, c1, c2, c3, ih]
            | true =>
                cases hf : findSubnetForIP m mp.ipaddr with
                | none => simp [migrateGo, classify, jsTruthy, c1, c2, c3, hf, ih]
                | some u =>
                    by_cases hu : u = ""
                    · simp [migrateGo, classify, jsTruthy, c1, c2, c3, hf, hu, ih]
                    · simp [migrateGo, classify, jsTruthy, c1, c2, c3, hf, hu, ih,
                        mkReservation]

theorem migrateGo_unmatched : ∀ (maps : List StaticMapping) (i k : Nat),
    (migrateGo m gen maps i k).2.1 =
      (maps.filter (fun mp => decide (classify m mp = .unmatched))).map
        StaticMapping.ipaddr := by
  intro maps
  induction maps with
  | nil => intro i k; simp [migrateGo]
  | cons mp rest ih =>
      intro i k
      by_cases c1 : mp.mac = "" ∨ mp.ipaddr = ""
      · simp [migrateGo, classify, c1, ih]
      · cases c2 : isValidMAC mp.mac with
        | false => simp [migrateGo, classify, c1, c2, ih]
        | true =>
            cases c3 : isValidIP mp.ipaddr with
            | false => simp [migrateGo, classify, c1, c2, c3, ih]
            | true =>
                cases hf : findSubnetForIP m mp.ipaddr with
                | none => simp [migrateGo, classify, jsTruthy, c1, c2, c3, hf, ih]
                | some u =>
                    by_cases hu : u = ""
                    · simp [migrateGo, classify, jsTruthy, c1, c2, c3, hf, hu, ih]
                    · simp [migrateGo, classify, jsTruthy, c1, c2, c3, hf, hu, ih]

theorem migrateGo_warnings : ∀ (maps : List StaticMapping) (i k : Nat),
    (migrateGo m gen maps i k).2.2.1 =
      (List.enumFrom i maps).filterMap (fun q => warnOut m q.1 q.2) := by
  intro maps
  induction maps with
  | nil => intro i k; simp [migrateGo, List.enumFrom]
  | cons mp rest ih =>
      intro i k
      by_cases c1 : mp.mac = "" ∨ mp.ipaddr = ""
      · simp [migrateGo, classify, warnOut, c1, ih, List.enumFrom]
      · cases c2 : isValidMAC mp.mac with
        | false => simp [migrateGo, classify, warnOut, c1, c2, ih, List.enumFrom]
        | true =>
            cases c3 : isValidIP mp.ipaddr with
            | false => simp [migrateGo, classify, warnOut, c1, c2, c3, ih, List.enumFrom]
            | true =>
                cases hf : findSubnetForIP m mp.ipaddr with
                | none =>
                    simp [migrateGo, classify, warnOut, jsTruthy, c1, c2, c3, hf, ih,
                      List.enumFrom]
                | some u =>
                    by_cases hu : u = ""
                    · simp [migrateGo, classify, warnOut, jsTruthy, c1, c2, c3, hf, hu, ih,
                        List.enumFrom]
                    · simp [migrateGo, classify, warnOut, jsTruthy, c1, c2, c3, hf, hu, ih,
                        List.enumFrom]

theorem migrateGo_errors : ∀ (maps : List StaticMapping) (i k : Nat),
    (migrateGo m gen maps i k).2.2.2 =
      maps.filterMap (fun mp => errOut m mp) := by
  intro maps
  induction maps with
  | nil => intro i k; simp [migrateGo]
  | cons mp rest ih =>
      intro i k
      by_cases c1 : mp.mac = "" ∨ mp.ipaddr = ""
      · simp [migrateGo, classify, errOut, c1, ih]
      · cases c2 : isValidMAC mp.mac with
        | false => simp [migrateGo, classify, errOut, c1, c2, ih]
        | true =>
            cases c3 : isValidIP mp.ipaddr with
            | false => simp [migrateGo, classify, errOut, c1, c2, c3, ih]
            | true =>
                cases hf : findSubnetForIP m mp.ipaddr with
                | none => simp [migrateGo, classify, errOut, jsTruthy, c1, c2, c3, hf, ih]
                | some u =>
                    by_cases hu : u = ""
                    · simp [migrateGo, classify, errOut, jsTruthy, c1, c2, c3, hf, hu, ih]
                    · simp [migrateGo, classify, errOut, jsTruthy, c1, c2, c3, hf, hu, ih]

theorem length_filterMap_countP {α β : Type} (f : α → Option β) :
    ∀ l : List α, (l.filterMap f).length = l.countP (fun a => (f a).isSome) := by
  intro l
  induction l with
  | nil => simp
  | cons a t ih =>
      rw [List.filterMap_cons, List.countP_cons]
      cases hf : f a <;> simp [hf, ih]

theorem countP_enumFrom {α : Type} (g : α → Bool) :
    ∀ (l : List α) (i : Nat),
      (List.enumFrom i l).countP (fun q => g q.2) = l.countP g := by
  intro l
  induction l with
  | nil => intro i; simp [List.enumFrom]
  | cons a t ih =>
      intro i
      rw [show List.enumFrom i (a :: t) = (i, a) :: List.enumFrom (i + 1) t from rfl]
      rw [List.countP_cons, List.countP_cons, ih]

theorem length_filterMap_warnOut : ∀ (maps : List StaticMapping) (i : Nat),
    ((List.enumFrom i maps).filterMap (fun q => warnOut m q.1 q.2)).length =
      maps.countP (fun mp => warnClass (classify m mp)) := by
  intro maps i
  rw [length_filterMap_countP]
  rw [List.countP_congr (q := fun q => warnClass (classify m q.2)) ?_]
  · exact countP_enumFrom (fun mp => warnClass (classify m mp)) maps i
  · intro q _
    cases hcl : classify m q.2 <;> simp [warnOut, warnClass, hcl]

theorem length_filterMap_errOut : ∀ maps : List StaticMapping,
    (maps.filterMap (fun mp => errOut m mp)).length =
      maps.countP (fun mp => decide (classify m mp = .invalidIP)) := by
  intro maps
  rw [length_filterMap_countP]
  refine List.countP_congr ?_
  intro mp _
  cases hcl : classify m mp <;> simp [errOut, hcl]

theorem classify_partition : ∀ maps : List StaticMapping,
    maps.countP (fun mp => decide (classify m mp = .missingFields)) +
      maps.countP (fun mp => decide (classify m mp = .invalidMAC)) +
      maps.countP (fun mp => decide (classify m mp = .invalidIP)) +
      maps.countP (fun mp => decide (classify m mp = .unmatched)) +
      maps.countP (fun mp => decide (classify m mp = .success)) = maps.length := by
  intro maps
  induction maps with
  | nil => simp
  | cons mp rest ih =>
      simp only [List.countP_cons, List.length_cons]
      cases hcl : classify m mp <;> simp [hcl] <;> omega

end MigrateLemmas

/-- C5 counterexample: with a retained range keyed by the empty-string uuid
(ids are only required to be opaque and unique), the mapping's valid IP
`10.0.0.5` *is* contained in a retained range, yet `if (!subnetUUID)`
(src/migrator.ts:62) treats the empty id as falsy: the code produces no
reservation and instead appends the IP to the unmatched list with one
warning, against the claim's "otherwise one reservation is produced". -/
theorem migrate_outcomes_counterexample :
    (∃ p ∈ retainedRanges [⟨"", "10.0.0.0", "8"⟩], rangeContains p.2 167772165 = true) ∧
    parseIPv4 "10.0.0.5" = some 167772165 ∧
    isValidMAC "00:11:22:33:44:55" = true ∧
    (migrate (buildSubnetMap [⟨"", "10.0.0.0", "8"⟩]) (fun _ => "r")
        [{ mac := "00:11:22:33:44:55", ipaddr := "10.0.0.5" }]).reservations = [] ∧
    (migrate (buildSubnetMap [⟨"", "10.0.0.0", "8"⟩]) (fun _ => "r")
        [{ mac := "00:11:22:33:44:55", ipaddr := "10.0.0.5" }]).unmatchedIPs =
      ["10.0.0.5"] ∧
    (migrate (buildSubnetMap [⟨"", "10.0.0.0", "8"⟩]) (fun _ => "r")
        [{ mac := "00:11:22:33:44:55", ipaddr := "10.0.0.5" }]).warnings.length = 1 := by
  decide

/-- C5 (amended): each mapping record reaches exactly one of the five
terminal outcomes, decided in the guard order of the loop body — missing
fields, invalid MAC, invalid IP, then unmatched when the subnet lookup
yields no JS-truthy id (the IP lies in no retained range, or the first
containing range's id is the empty string), else success; each outcome
contributes exactly its one diagnostic (warning / error / unmatched entry /
reservation) and the five outcome counts cover every record, so no record
aborts the batch. -/
theorem migrate_outcomes (m : SubnetMatcher) (gen : Nat → String)
    (maps : List StaticMapping) :
    (∀ mp : StaticMapping,
      (classify m mp = .missingFields ↔ (mp.mac = "" ∨ mp.ipaddr = "")) ∧
      (classify m mp = .invalidMAC ↔
        ¬(mp.mac = "" ∨ mp.ipaddr = "") ∧ isValidMAC mp.mac = false) ∧
      (classify m mp = .invalidIP ↔
        ¬(mp.mac = "" ∨ mp.ipaddr = "") ∧ isValidMAC mp.mac = true ∧
          isValidIP mp.ipaddr = false) ∧
      (classify m mp = .unmatched ↔
        ¬(mp.mac = "" ∨ mp.ipaddr = "") ∧ isValidMAC mp.mac = true ∧
          isValidIP mp.ipaddr = true ∧
          jsTruthy (findSubnetForIP m mp.ipaddr) = false) ∧
      (classify m mp = .success ↔
        ¬(mp.mac = "" ∨ mp.ipaddr = "") ∧ isValidMAC mp.mac = true ∧
          isValidIP mp.ipaddr = true ∧
          jsTruthy (findSubnetForIP m mp.ipaddr) = true)) ∧
    (migrate m gen maps).warnings.length =
      maps.countP (fun mp => decide (classify m mp = .missingFields) ||
        decide (classify m mp = .invalidMAC) || decide (classify m mp = .unmatched)) ∧
    (migrate m gen maps).errors.length =
      maps.countP (fun mp => decide (classify m mp = .invalidIP)) ∧
    (migrate m gen maps).unmatchedIPs.length =
      maps.countP (fun mp => decide (classify m mp = .unmatched)) ∧
    (migrate m gen maps).reservations.length =
      maps.countP (fun mp => decide (classify m mp = .success)) ∧
    maps.countP (fun mp => decide (classify m mp = .missingFields)) +
      maps.countP (fun mp => decide (classify m mp = .invalidMAC)) +
      maps.countP (fun mp => decide (classify m mp = .invalidIP)) +
      maps.countP (fun mp => decide (classify m mp = .unmatched)) +
      maps.countP (fun mp => decide (classify m mp = .success)) = maps.length := by
  refine ⟨?_, ?_, ?_, ?_, ?_, classify_partition m maps⟩
  · intro mp
    unfold classify
    by_cases c1 : mp.mac = "" ∨ mp.ipaddr = ""
    · simp [c1]
    · cases c2 : isValidMAC mp.mac <;> cases c3 : isValidIP mp.ipaddr <;>
        cases hjt : jsTruthy (findSubnetForIP m mp.ipaddr) <;>
          simp [c1, c2, c3, hjt]
  · show (migrateGo m gen maps 0 0).2.2.1.length = _
    rw [migrateGo_warnings, length_filterMap_warnOut]
    exact List.countP_congr (fun mp _ => by cases classify m mp <;> simp [warnClass])
  · show (migrateGo m gen maps 0 0).2.2.2.length = _
    rw [migrateGo_errors, length_filterMap_errOut]
  · show (migrateGo m gen maps 0 0).2.1.length = _
    rw [migrateGo_unmatched, List.length_map, ← List.countP_eq_length_filter]
  · show (migrateGo m gen maps 0 0).1.length = _
    have h := congrArg List.length (migrateGo_res_proj m gen maps 0 0)
    simpa [← List.countP_eq_length_filter] using h

/-- C6: the reservations of `migrate` are those of the successful mappings
in input order, and the three diagnostic sequences (unmatched IPs, warnings,
errors) list their entries in input mapping order, one per contributing
record, without deduplication. -/
theorem migrate_order (m : SubnetMatcher) (gen : Nat → String)
    (maps : List StaticMapping) :
    (migrate m gen maps).reservations.map (fun r => (r.hw_address, r.ip_address)) =
      (maps.filter (fun mp => decide (classify m mp = .success))).map
        (fun mp => (mp.mac, mp.ipaddr)) ∧
    (migrate m gen maps).unmatchedIPs =
      (maps.filter (fun mp => decide (classify m mp = .unmatched))).map
        StaticMapping.ipaddr ∧
    (migrate m gen maps).warnings =
      maps.enum.filterMap (fun q => warnOut m q.1 q.2) ∧
    (migrate m gen maps).errors = maps.filterMap (fun mp => errOut m mp) := by
  refine ⟨?_, ?_, ?_, ?_⟩
  · exact migrateGo_res_proj m gen maps 0 0
  · exact migrateGo_unmatched m gen maps 0 0
  · show (migrateGo m gen maps 0 0).2.2.1 = _
    rw [migrateGo_warnings]
    rfl
  · exact migrateGo_errors m gen maps 0 0


/-- C7 counterexample: `getStats` is not a pure function of the mapping list
and the result alone — two migrators whose matchers retained different
subnet lists give different stats (`totalSubnets`) on identical inputs. -/
theorem getStats_not_two_input_pure :
    getStats (buildSubnetMap []) [] ⟨[], 0, [], [], []⟩ ≠
      getStats (buildSubnetMap [⟨"s1", "10.0.0.0", "8"⟩]) [] ⟨[], 0, [], [], []⟩ := by
  decide

/-- C7 (amended): `getStats` returns the stated counts — total mappings,
successful = the result's reservation count, failed = total − successful,
and the three diagnostic lengths — and is a pure function of its two inputs
*and* the matcher's retained subnet list, which alone determines
`totalSubnets`; on a result produced by `migrate` the successful count is
the reservation list's length, at most the mapping count, so the failure
count is non-negative. -/
theorem getStats_fields (m m' : SubnetMatcher) (gen : Nat → String)
    (maps : List StaticMapping) (res : MigrationResult) :
    (getStats m maps res).totalStaticMappings = maps.length ∧
    (getStats m maps res).successfulMigrations = res.reservationsCreated ∧
    (getStats m maps res).failedMigrations =
      (maps.length : Int) - res.reservationsCreated ∧
    (getStats m maps res).unmatchedIPs = res.unmatchedIPs.length ∧
    (getStats m maps res).warnings = res.warnings.length ∧
    (getStats m maps res).errors = res.errors.length ∧
    (getStats m maps res).totalSubnets = (getAllSubnets m).length ∧
    ((getAllSubnets m).length = (getAllSubnets m').length →
      getStats m maps res = getStats m' maps res) ∧
    (getStats m maps (migrate m gen maps)).successfulMigrations =
      (migrate m gen maps).reservations.length ∧
    (migrate m gen maps).reservations.length ≤ maps.length ∧
    0 ≤ (getStats m maps (migrate m gen maps)).failedMigrations := by
  have h := congrArg List.length (migrateGo_res_proj m gen maps 0 0)
  simp only [List.length_map] at h
  have hle : (migrate m gen maps).reservations.length ≤ maps.length := by
    calc (migrate m gen maps).reservations.length
        = (maps.filter (fun mp => decide (classify m mp = .success))).length := h
      _ ≤ maps.length := List.length_filter_le _ _
  refine ⟨rfl, rfl, rfl, rfl, rfl, rfl, rfl, ?_, rfl, hle, ?_⟩
  · intro he
    unfold getStats
    rw [he]
  · show (0 : Int) ≤ (maps.length : Int) - (migrate m gen maps).reservationsCreated
    have hrc : (migrate m gen maps).reservationsCreated =
        (migrate m gen maps).reservations.length := rfl
    rw [hrc]
    omega

end IscToKea
